import Mathlib

/-!
Verification of the halorbits plotting scripts.

This file gives a shallow embedding, over the real numbers, of the numeric
parts of the repository that the specification talks about:

* the EMBR rotating-frame basis construction `get_embr_transform` of
  nrho_plot.py and the equivalent inline construction `xfm_manual` of
  test_transform.py;
* the collinear libration-point estimators `d_SE_L` (genesis_halo_plot.py),
  `d_SE_L_arr` (jwst.py) and `r_L2` (nrho_plot.py);
* the triangular libration-point construction `compute_l4_l5_from_jupiter`
  of lucy.py;
* the time grids: the fixed-cadence `arange` grid of vger.py and the
  `linspace` grid with `total_pts` of jwst.py;
* the Voyager state sampler `sample_object` of vger.py with its Y-coordinate
  filter;
* the static-export output control (HTML write followed by a guarded PNG
  write) of nrho_plot.py and genesis_halo_plot.py.

Floating-point arithmetic is modelled by exact real arithmetic; the external
ephemeris backend is modelled by explicit function parameters supplying the
queried state vectors.
-/

/-- A 3-vector of real numbers, modelling a numpy length-3 float array. -/
@[ext] structure Vec3 where
  x : ℝ
  y : ℝ
  z : ℝ

/-- The zero vector. -/
def zero3 : Vec3 := ⟨0, 0, 0⟩

/-- Dot product of two 3-vectors. -/
noncomputable def dot (a b : Vec3) : ℝ := a.x * b.x + a.y * b.y + a.z * b.z

/-- Cross product of two 3-vectors, as in np.cross. -/
noncomputable def cross (a b : Vec3) : Vec3 :=
  ⟨a.y * b.z - a.z * b.y, a.z * b.x - a.x * b.z, a.x * b.y - a.y * b.x⟩

/-- Componentwise difference of two 3-vectors. -/
noncomputable def sub (a b : Vec3) : Vec3 := ⟨a.x - b.x, a.y - b.y, a.z - b.z⟩

/-- Scalar multiple of a 3-vector. -/
noncomputable def smul (c : ℝ) (a : Vec3) : Vec3 := ⟨c * a.x, c * a.y, c * a.z⟩

/-- Euclidean norm of a 3-vector, as in np.linalg.norm. -/
noncomputable def norm3 (a : Vec3) : ℝ := Real.sqrt (dot a a)

/-- The vhat helper of get_embr_transform in nrho_plot.py (also sp.vhat in
test_transform.py): componentwise division of the vector by its norm. -/
noncomputable def vhat (a : Vec3) : Vec3 :=
  ⟨a.x / norm3 a, a.y / norm3 a, a.z / norm3 a⟩

/-- The basis construction of get_embr_transform in nrho_plot.py, as a
function of the queried Moon state (position r, velocity v) with respect to
the Earth-Moon barycenter:
x_hat = vhat r, z_hat = vhat (r x v), y_hat = vhat (z_hat x x_hat).
The result is the triple of matrix rows (x_hat, y_hat, z_hat). -/
noncomputable def get_embr_transform (r v : Vec3) : Vec3 × Vec3 × Vec3 :=
  let x_hat := vhat r
  let z_hat := vhat (cross r v)
  let y_hat := vhat (cross z_hat x_hat)
  (x_hat, y_hat, z_hat)

/-- The inline basis construction of test_transform.py:
x_axis = vhat r, z_axis = vhat (r x v), y_axis = z_axis x x_axis
(no second normalization on the Y axis). Rows (x_axis, y_axis, z_axis). -/
noncomputable def xfm_manual (r v : Vec3) : Vec3 × Vec3 × Vec3 :=
  let x_axis := vhat r
  let z_axis := vhat (cross r v)
  let y_axis := cross z_axis x_axis
  (x_axis, y_axis, z_axis)

/-- Application of a 3x3 matrix, given as its rows, to a column vector:
the matrix-vector products xfm @ p of nrho_plot.py and xfm_manual.dot(p) of
test_transform.py. -/
noncomputable def matApply (m : Vec3 × Vec3 × Vec3) (p : Vec3) : Vec3 :=
  ⟨dot m.1 p, dot m.2.1 p, dot m.2.2 p⟩

/-- gm_sun constant of jwst.py and genesis_halo_plot.py (km^3/s^2). -/
noncomputable def gm_sun : ℝ := 1.32712440018e11

/-- gm_earth constant of jwst.py and genesis_halo_plot.py (km^3/s^2). -/
noncomputable def gm_earth : ℝ := 3.986004418e5

/-- The Sun-Earth L1/L2 distance of genesis_halo_plot.py:
d_SE_L = R_se * (gm_earth / (3 * (gm_sun + gm_earth)))^(1/3),
as a function of the sampled Sun-Earth separation R_se. -/
noncomputable def d_SE_L (R_se : ℝ) : ℝ :=
  R_se * (gm_earth / (3 * (gm_sun + gm_earth))) ^ ((1 : ℝ) / 3)

/-- The per-epoch Sun-Earth L1/L2 distances of jwst.py: the same scalar
formula applied elementwise to the array of sampled separations. -/
noncomputable def d_SE_L_arr (R_se_list : List ℝ) : List ℝ :=
  R_se_list.map (fun R_se => R_se * (gm_earth / (3 * (gm_sun + gm_earth))) ^ ((1 : ℝ) / 3))

/-- The mu constant of nrho_plot.py (the Earth-Moon mass-ratio parameter
m_moon / (m_earth + m_moon)). -/
noncomputable def mu : ℝ := 0.012150585609624

/-- The Moon-to-L2 distance of nrho_plot.py:
r_L2 = R_moon * (mu / 3)^(1/3), where the script passes for R_moon the norm
of the Moon position with respect to the Earth-Moon barycenter. -/
noncomputable def r_L2 (R_moon : ℝ) : ℝ := R_moon * (mu / 3) ^ ((1 : ℝ) / 3)

/-- The Hill-sphere collinear libration-point distance as the specification
words it: distance from the smaller body = R * (m_small / (3 * (m_large +
m_small)))^(1/3), where R is the instantaneous separation of the two bodies.
Spec-side definition, for comparison with the code-side formulas above. -/
noncomputable def hillDistance (R m_small m_large : ℝ) : ℝ :=
  R * (m_small / (3 * (m_large + m_small))) ^ ((1 : ℝ) / 3)

/-- Degrees to radians, as in np.deg2rad. -/
noncomputable def deg2rad (d : ℝ) : ℝ := d * Real.pi / 180

/-- The zip of three coordinate lists into a list of 3-vectors: the
`for xi, yi, zi in zip(jx, jy, jz)` iteration of compute_l4_l5_from_jupiter
in lucy.py (zip truncates to the shortest list). -/
noncomputable def zip3Vec (jx jy jz : List ℝ) : List Vec3 :=
  (jx.zip (jy.zip jz)).map (fun p => ⟨p.1, p.2.1, p.2.2⟩)

/-- compute_l4_l5_from_jupiter of lucy.py: per sample, the L4 point rotates
(xi, yi) by +theta and the L5 point by -theta about the +Z axis, with the Z
component carried over unchanged. The six returned coordinate lists are
bundled here as two lists of 3-vectors (L4 list, L5 list). -/
noncomputable def compute_l4_l5_from_jupiter (jx jy jz : List ℝ) (deg : ℝ) :
    List Vec3 × List Vec3 :=
  let theta := deg2rad deg
  let cos_t := Real.cos theta
  let sin_t := Real.sin theta
  ((zip3Vec jx jy jz).map
      (fun p => ⟨p.x * cos_t - p.y * sin_t, p.x * sin_t + p.y * cos_t, p.z⟩),
   (zip3Vec jx jy jz).map
      (fun p => ⟨p.x * cos_t + p.y * sin_t, -p.x * sin_t + p.y * cos_t, p.z⟩))

/-- Rotation of a 3-vector by an angle about the +Z axis (the spec-side
description of the L4/L5 construction). -/
noncomputable def rotZ (theta : ℝ) (p : Vec3) : Vec3 :=
  ⟨p.x * Real.cos theta - p.y * Real.sin theta,
   p.x * Real.sin theta + p.y * Real.cos theta,
   p.z⟩

/-- The length of the numpy arange grid: np.arange(start, stop, step) has
max(0, ceil((stop - start) / step)) entries (for positive step). -/
noncomputable def arangeLen (start stop step : ℝ) : ℕ :=
  ⌈(stop - start) / step⌉₊

/-- The fixed-cadence epoch grid of vger.py:
ets = np.arange(et_start, et_end, 86400.0), generalized over the cadence.
Entry k is start + k * step. -/
noncomputable def arange (start stop step : ℝ) : List ℝ :=
  (List.range (arangeLen start stop step)).map (fun k : ℕ => start + (k : ℝ) * step)

/-- total_pts of jwst.py: int(np.ceil((et_end - et_start) / 86400.0)). -/
noncomputable def total_pts (et_start et_end : ℝ) : ℕ :=
  ⌈(et_end - et_start) / 86400⌉₊

/-- The evenly spaced epoch grid np.linspace(a, b, n) used by
sample_spacecraft in jwst.py: n samples from a to b inclusive, entry k being
a + (b - a) * k / (n - 1). -/
noncomputable def linspace (a b : ℝ) (n : ℕ) : List ℝ :=
  (List.range n).map (fun k : ℕ => a + (b - a) * (k : ℝ) / ((n : ℝ) - 1))

/-- Observable events of the static-export branch of nrho_plot.py and
genesis_halo_plot.py. -/
inductive ExportEvent
  | wroteHtml
  | wrotePng
  | warnedPngFailed (e : String)
deriving DecidableEq

/-- The static-export output control of nrho_plot.py and
genesis_halo_plot.py: the HTML file is written first, unconditionally; then
fig.write_image runs inside a try/except whose handler prints a warning.
The PNG rasterizer is modelled as an injected result (Except): ok means
write_image returned, error carries the exception text. The function returns
the ordered event trace together with a flag telling whether the run ended
in an uncaught exception. -/
def static_export (write_image : Except String Unit) : List ExportEvent × Bool :=
  (ExportEvent.wroteHtml ::
    (match write_image with
     | Except.ok _ => [ExportEvent.wrotePng]
     | Except.error e => [ExportEvent.warnedPngFailed e]),
   false)

/-- sample_object of vger.py, with the ephemeris backend abstracted as a
function st from epoch to the queried (position, velocity) pair in the VGER
frame and the UTC formatter abstracted as utc. For each epoch, the sample is
appended to the five output lists exactly when the Y coordinate of the
position satisfies r.y <= 6e9; the appended data are the position
components, the speed (norm of the velocity) and the UTC string. -/
noncomputable def sample_object (st : ℝ → Vec3 × Vec3) (utc : ℝ → String) :
    List ℝ → List ℝ × List ℝ × List ℝ × List ℝ × List String
  | [] => ([], [], [], [], [])
  | et :: rest =>
    let r := (st et).1
    let prev := sample_object st utc rest
    if r.y ≤ 6e9 then
      let v := (st et).2
      (r.x :: prev.1, r.y :: prev.2.1, r.z :: prev.2.2.1,
       norm3 v :: prev.2.2.2.1, utc et :: prev.2.2.2.2)
    else prev

/-- The epochs of an input grid that sample_object retains: those whose
sampled position has Y coordinate at most 6e9. -/
noncomputable def keptEpochs (st : ℝ → Vec3 × Vec3) (ets : List ℝ) : List ℝ :=
  ets.filter (fun et => decide ((st et).1.y ≤ 6e9))

/-- A concrete sampled state used to exhibit the filtering behaviour of
sample_object: position (7e9, 0, 0), velocity zero, at every epoch. -/
noncomputable def stBig : ℝ → Vec3 × Vec3 := fun _ => (⟨7e9, 0, 0⟩, zero3)

/-- A concrete sampled state with all coordinates small: position (1, 2, 3),
velocity zero, at every epoch. -/
noncomputable def stDemo : ℝ → Vec3 × Vec3 := fun _ => (⟨1, 2, 3⟩, zero3)

/-- A concrete UTC formatter. -/
def utcDemo : ℝ → String := fun _ => "t"

/-! ### Vector algebra lemmas -/

lemma dot_comm (a b : Vec3) : dot a b = dot b a := by
  unfold dot; ring

lemma dot_self_nonneg (a : Vec3) : 0 ≤ dot a a := by
  unfold dot
  nlinarith [mul_self_nonneg a.x, mul_self_nonneg a.y, mul_self_nonneg a.z]

lemma dot_self_eq_zero (a : Vec3) (h : dot a a = 0) : a = zero3 := by
  unfold dot at h
  have hx : a.x * a.x = 0 := by
    nlinarith [mul_self_nonneg a.x, mul_self_nonneg a.y, mul_self_nonneg a.z]
  have hy : a.y * a.y = 0 := by
    nlinarith [mul_self_nonneg a.x, mul_self_nonneg a.y, mul_self_nonneg a.z]
  have hz : a.z * a.z = 0 := by
    nlinarith [mul_self_nonneg a.x, mul_self_nonneg a.y, mul_self_nonneg a.z]
  ext
  · simpa [zero3] using mul_self_eq_zero.mp hx
  · simpa [zero3] using mul_self_eq_zero.mp hy
  · simpa [zero3] using mul_self_eq_zero.mp hz

lemma sq_norm3 (a : Vec3) : norm3 a * norm3 a = dot a a :=
  Real.mul_self_sqrt (dot_self_nonneg a)

lemma norm3_pos (a : Vec3) (h : a ≠ zero3) : 0 < norm3 a := by
  apply Real.sqrt_pos.mpr
  rcases lt_or_eq_of_le (dot_self_nonneg a) with h' | h'
  · exact h'
  · exact absurd (dot_self_eq_zero a h'.symm) h

lemma norm3_ne_zero (a : Vec3) (h : a ≠ zero3) : norm3 a ≠ 0 :=
  ne_of_gt (norm3_pos a h)

lemma norm3_zero3 : norm3 zero3 = 0 := by
  simp [norm3, dot, zero3]

lemma dot_vhat_vhat (a b : Vec3) :
    dot (vhat a) (vhat b) = dot a b / (norm3 a * norm3 b) := by
  unfold vhat dot
  rw [div_mul_div_comm, div_mul_div_comm, div_mul_div_comm,
    div_add_div_same, div_add_div_same]

lemma dot_vhat_left (a b : Vec3) : dot (vhat a) b = dot a b / norm3 a := by
  unfold vhat dot
  rw [div_mul_eq_mul_div, div_mul_eq_mul_div, div_mul_eq_mul_div,
    div_add_div_same, div_add_div_same]

lemma dot_vhat_self (a : Vec3) (h : a ≠ zero3) : dot (vhat a) (vhat a) = 1 := by
  have h2 : dot a a ≠ 0 := fun he => h (dot_self_eq_zero a he)
  rw [dot_vhat_vhat, sq_norm3]
  exact div_self h2

lemma cross_dot_left (a b : Vec3) : dot a (cross a b) = 0 := by
  unfold dot cross; ring

lemma cross_dot_right (a b : Vec3) : dot b (cross a b) = 0 := by
  unfold dot cross; ring

lemma cross_dot_self (a b : Vec3) :
    dot (cross a b) (cross a b) = dot a a * dot b b - dot a b * dot a b := by
  unfold dot cross; ring

lemma cross_cross_self (a b : Vec3) :
    cross a (cross b a) = sub (smul (dot a a) b) (smul (dot a b) a) := by
  simp only [cross, smul, sub, dot, Vec3.mk.injEq]
  refine ⟨by ring, by ring, by ring⟩

lemma norm3_eq_one (a : Vec3) (h : dot a a = 1) : norm3 a = 1 := by
  unfold norm3; rw [h]; exact Real.sqrt_one

lemma vhat_unit (a : Vec3) (h : dot a a = 1) : vhat a = a := by
  unfold vhat
  rw [norm3_eq_one a h]
  ext <;> simp

lemma vhat_eq_smul (a : Vec3) : vhat a = smul (norm3 a)⁻¹ a := by
  unfold vhat smul
  ext <;> simp [div_eq_mul_inv, mul_comm]

lemma cross_smul_right (c : ℝ) (a b : Vec3) :
    cross a (smul c b) = smul c (cross a b) := by
  simp only [cross, smul, Vec3.mk.injEq]
  refine ⟨by ring, by ring, by ring⟩

lemma dot_smul_left (c : ℝ) (a b : Vec3) : dot (smul c a) b = c * dot a b := by
  unfold dot smul; ring

lemma norm3_smul (c : ℝ) (a : Vec3) : norm3 (smul c a) = |c| * norm3 a := by
  simp only [norm3, smul, dot]
  rw [show c * a.x * (c * a.x) + c * a.y * (c * a.y) + c * a.z * (c * a.z)
      = c ^ 2 * (a.x * a.x + a.y * a.y + a.z * a.z) by ring,
    Real.sqrt_mul (sq_nonneg c), Real.sqrt_sq_eq_abs]

lemma norm3_xonly (t : ℝ) : norm3 (⟨t, 0, 0⟩ : Vec3) = |t| := by
  simp only [norm3, dot]
  rw [show t * t + 0 * 0 + 0 * 0 = t ^ 2 by ring, Real.sqrt_sq_eq_abs]

lemma sub_smul_self (c : ℝ) (a : Vec3) : sub a (smul c a) = smul (1 - c) a := by
  simp only [sub, smul, Vec3.mk.injEq]
  refine ⟨by ring, by ring, by ring⟩

/-! ### EMBR frame lemmas -/

lemma get_embr_transform_eq (r v : Vec3) :
    get_embr_transform r v =
      (vhat r, vhat (cross (vhat (cross r v)) (vhat r)), vhat (cross r v)) := rfl

lemma xfm_manual_eq (r v : Vec3) :
    xfm_manual r v =
      (vhat r, cross (vhat (cross r v)) (vhat r), vhat (cross r v)) := rfl

lemma dot_x_z_zero (r v : Vec3) : dot (vhat r) (vhat (cross r v)) = 0 := by
  rw [dot_vhat_vhat, cross_dot_left]
  exact zero_div _

lemma embr_w_unit (r v : Vec3) (hr : r ≠ zero3) (hc : cross r v ≠ zero3) :
    dot (cross (vhat (cross r v)) (vhat r)) (cross (vhat (cross r v)) (vhat r)) = 1 := by
  rw [cross_dot_self, dot_vhat_self _ hc, dot_vhat_self _ hr]
  have h0 : dot (vhat (cross r v)) (vhat r) = 0 := by
    rw [dot_comm]; exact dot_x_z_zero r v
  rw [h0]; ring

lemma embr_y_eq (r v : Vec3) (hr : r ≠ zero3) (hc : cross r v ≠ zero3) :
    vhat (cross (vhat (cross r v)) (vhat r)) = cross (vhat (cross r v)) (vhat r) :=
  vhat_unit _ (embr_w_unit r v hr hc)

lemma dot_cross_vhat_r (w r : Vec3) : dot (cross w (vhat r)) r = 0 := by
  rw [vhat_eq_smul, cross_smul_right, dot_smul_left]
  rw [show dot (cross w r) r = 0 from by rw [dot_comm]; exact cross_dot_right w r]
  ring

/-- Claim C1: for every position r and velocity v with r and r x v nonzero,
the basis rows (X, Y, Z) built by get_embr_transform are orthonormal (unit
norms, pairwise dot products zero) and right-handed (X x Y = Z), so the 3x3
matrix with these rows is a rotation matrix; moreover the inline
construction xfm_manual of test_transform.py builds the same matrix. -/
theorem get_embr_transform_orthonormal (r v : Vec3)
    (hr : r ≠ zero3) (hc : cross r v ≠ zero3) :
    dot (get_embr_transform r v).1 (get_embr_transform r v).1 = 1 ∧
    dot (get_embr_transform r v).2.1 (get_embr_transform r v).2.1 = 1 ∧
    dot (get_embr_transform r v).2.2 (get_embr_transform r v).2.2 = 1 ∧
    dot (get_embr_transform r v).1 (get_embr_transform r v).2.1 = 0 ∧
    dot (get_embr_transform r v).1 (get_embr_transform r v).2.2 = 0 ∧
    dot (get_embr_transform r v).2.1 (get_embr_transform r v).2.2 = 0 ∧
    cross (get_embr_transform r v).1 (get_embr_transform r v).2.1 =
      (get_embr_transform r v).2.2 ∧
    xfm_manual r v = get_embr_transform r v := by
  rw [get_embr_transform_eq, xfm_manual_eq]
  dsimp only
  have hxx : dot (vhat r) (vhat r) = 1 := dot_vhat_self r hr
  have hzz : dot (vhat (cross r v)) (vhat (cross r v)) = 1 := dot_vhat_self _ hc
  have hxz : dot (vhat r) (vhat (cross r v)) = 0 := dot_x_z_zero r v
  have hzx : dot (vhat (cross r v)) (vhat r) = 0 := by rw [dot_comm]; exact hxz
  have hww := embr_w_unit r v hr hc
  have hyw := embr_y_eq r v hr hc
  rw [hyw]
  refine ⟨hxx, hww, hzz, cross_dot_right _ _, hxz, ?_, ?_, rfl⟩
  · rw [dot_comm]; exact cross_dot_left _ _
  · rw [cross_cross_self, hxx, hxz]
    ext <;> simp [sub, smul]

/-- Claim C2: multiplying the rotation matrix built from (r, v) by r itself
yields the vector (norm r, 0, 0): zero Y and Z components and X component
equal to the norm of r, for both the nrho_plot.py and the test_transform.py
construction. -/
theorem embr_reference_on_x_axis (r v : Vec3)
    (hr : r ≠ zero3) (hc : cross r v ≠ zero3) :
    matApply (get_embr_transform r v) r = ⟨norm3 r, 0, 0⟩ ∧
    matApply (xfm_manual r v) r = ⟨norm3 r, 0, 0⟩ := by
  have hx : dot (vhat r) r = norm3 r := by
    rw [dot_vhat_left, ← sq_norm3, mul_div_assoc, div_self (norm3_ne_zero r hr),
      mul_one]
  have hz : dot (vhat (cross r v)) r = 0 := by
    rw [dot_vhat_left,
      show dot (cross r v) r = 0 from by rw [dot_comm]; exact cross_dot_left r v]
    exact zero_div _
  have hy : dot (cross (vhat (cross r v)) (vhat r)) r = 0 := dot_cross_vhat_r _ r
  constructor
  · rw [get_embr_transform_eq]
    unfold matApply
    dsimp only
    rw [embr_y_eq r v hr hc]
    simp only [Vec3.mk.injEq]
    exact ⟨hx, hy, hz⟩
  · rw [xfm_manual_eq]
    unfold matApply
    dsimp only
    simp only [Vec3.mk.injEq]
    exact ⟨hx, hy, hz⟩

/-- Claim C8: under the precondition that r and r x v are nonzero, every
normalization inside get_embr_transform divides by a strictly positive norm
(the norms of r, of r x v, and of z_hat x x_hat), so the construction is
well defined; and when r x v is the zero vector, the divisor of the Z
normalization is zero and the normalization does not produce a unit vector
(in this embedding, where division by zero yields zero, z_hat collapses to
the zero vector instead of a valid basis vector). -/
theorem embr_divisors_positive :
    (∀ r v : Vec3, r ≠ zero3 → cross r v ≠ zero3 →
      0 < norm3 r ∧ 0 < norm3 (cross r v) ∧
      0 < norm3 (cross (vhat (cross r v)) (vhat r))) ∧
    (∀ r v : Vec3, cross r v = zero3 →
      norm3 (cross r v) = 0 ∧ vhat (cross r v) = zero3) := by
  constructor
  · intro r v hr hc
    refine ⟨norm3_pos r hr, norm3_pos _ hc, ?_⟩
    rw [norm3_eq_one _ (embr_w_unit r v hr hc)]
    exact one_pos
  · intro r v h
    rw [h]
    refine ⟨norm3_zero3, ?_⟩
    unfold vhat
    rw [norm3_zero3]
    ext <;> simp [zero3]

lemma wit_r_ne : (⟨1, 0, 0⟩ : Vec3) ≠ zero3 := by
  intro h
  have := congrArg Vec3.x h
  simp [zero3] at this

lemma wit_c_ne : cross (⟨1, 0, 0⟩ : Vec3) ⟨0, 1, 0⟩ ≠ zero3 := by
  intro h
  have := congrArg Vec3.z h
  simp [cross, zero3] at this

/-- Witness for claim C1 at the concrete input r = (1,0,0), v = (0,1,0). -/
theorem get_embr_transform_orthonormal_witness :
    ((⟨1, 0, 0⟩ : Vec3) ≠ zero3) ∧
    (cross (⟨1, 0, 0⟩ : Vec3) ⟨0, 1, 0⟩ ≠ zero3) ∧
    (dot (get_embr_transform ⟨1, 0, 0⟩ ⟨0, 1, 0⟩).1
        (get_embr_transform ⟨1, 0, 0⟩ ⟨0, 1, 0⟩).1 = 1 ∧
     dot (get_embr_transform ⟨1, 0, 0⟩ ⟨0, 1, 0⟩).2.1
        (get_embr_transform ⟨1, 0, 0⟩ ⟨0, 1, 0⟩).2.1 = 1 ∧
     dot (get_embr_transform ⟨1, 0, 0⟩ ⟨0, 1, 0⟩).2.2
        (get_embr_transform ⟨1, 0, 0⟩ ⟨0, 1, 0⟩).2.2 = 1 ∧
     dot (get_embr_transform ⟨1, 0, 0⟩ ⟨0, 1, 0⟩).1
        (get_embr_transform ⟨1, 0, 0⟩ ⟨0, 1, 0⟩).2.1 = 0 ∧
     dot (get_embr_transform ⟨1, 0, 0⟩ ⟨0, 1, 0⟩).1
        (get_embr_transform ⟨1, 0, 0⟩ ⟨0, 1, 0⟩).2.2 = 0 ∧
     dot (get_embr_transform ⟨1, 0, 0⟩ ⟨0, 1, 0⟩).2.1
        (get_embr_transform ⟨1, 0, 0⟩ ⟨0, 1, 0⟩).2.2 = 0 ∧
     cross (get_embr_transform ⟨1, 0, 0⟩ ⟨0, 1, 0⟩).1
        (get_embr_transform ⟨1, 0, 0⟩ ⟨0, 1, 0⟩).2.1 =
       (get_embr_transform ⟨1, 0, 0⟩ ⟨0, 1, 0⟩).2.2 ∧
     xfm_manual ⟨1, 0, 0⟩ ⟨0, 1, 0⟩ = get_embr_transform ⟨1, 0, 0⟩ ⟨0, 1, 0⟩) :=
  ⟨wit_r_ne, wit_c_ne, get_embr_transform_orthonormal _ _ wit_r_ne wit_c_ne⟩

/-- Witness for claim C2 at the concrete input r = (1,0,0), v = (0,1,0). -/
theorem embr_reference_on_x_axis_witness :
    ((⟨1, 0, 0⟩ : Vec3) ≠ zero3) ∧
    (cross (⟨1, 0, 0⟩ : Vec3) ⟨0, 1, 0⟩ ≠ zero3) ∧
    matApply (get_embr_transform ⟨1, 0, 0⟩ ⟨0, 1, 0⟩) ⟨1, 0, 0⟩ =
      ⟨norm3 ⟨1, 0, 0⟩, 0, 0⟩ ∧
    matApply (xfm_manual ⟨1, 0, 0⟩ ⟨0, 1, 0⟩) ⟨1, 0, 0⟩ =
      ⟨norm3 ⟨1, 0, 0⟩, 0, 0⟩ := by
  obtain ⟨h1, h2⟩ := embr_reference_on_x_axis _ _ wit_r_ne wit_c_ne
  exact ⟨wit_r_ne, wit_c_ne, h1, h2⟩

/-- Witness for claim C8: the positive-divisor part at r = (1,0,0),
v = (0,1,0), and the degenerate part at r = (1,0,0), v = (2,0,0) (parallel
vectors, vanishing cross product). -/
theorem embr_divisors_positive_witness :
    (0 < norm3 (⟨1, 0, 0⟩ : Vec3) ∧
     0 < norm3 (cross (⟨1, 0, 0⟩ : Vec3) ⟨0, 1, 0⟩) ∧
     0 < norm3 (cross (vhat (cross (⟨1, 0, 0⟩ : Vec3) ⟨0, 1, 0⟩))
        (vhat (⟨1, 0, 0⟩ : Vec3)))) ∧
    (norm3 (cross (⟨1, 0, 0⟩ : Vec3) ⟨2, 0, 0⟩) = 0 ∧
     vhat (cross (⟨1, 0, 0⟩ : Vec3) ⟨2, 0, 0⟩) = zero3) := by
  have hpar : cross (⟨1, 0, 0⟩ : Vec3) ⟨2, 0, 0⟩ = zero3 := by
    simp only [cross, zero3, Vec3.mk.injEq]
    norm_num
  exact ⟨embr_divisors_positive.1 _ _ wit_r_ne wit_c_ne,
    embr_divisors_positive.2 (⟨1, 0, 0⟩ : Vec3) ⟨2, 0, 0⟩ hpar⟩

/-! ### Collinear libration-point estimators -/

lemma mu_lt_one : mu < 1 := by norm_num [mu]

lemma mu_pos : 0 < mu := by norm_num [mu]

lemma one_sub_mu_ne : (1 : ℝ) - mu ≠ 0 := by norm_num [mu]

lemma hillDistance_mu (R : ℝ) : hillDistance R mu (1 - mu) = R * (mu / 3) ^ ((1 : ℝ) / 3) := by
  unfold hillDistance
  rw [show mu / (3 * ((1 - mu) + mu)) = mu / 3 by ring]

/-- Claim C3 (amended): the Sun-Earth L1/L2 distances of
genesis_halo_plot.py and jwst.py equal the Hill-sphere formula with
m_small = gm_earth, m_large = gm_sun and R the sampled Sun-Earth separation;
the Moon-L2 distance of nrho_plot.py equals the Hill-sphere formula with
mass ratio mu, but with R the EMB-to-Moon distance, which for a barycentric
Earth position (r_earth = -(mu/(1-mu)) * r_moon relative to the barycenter)
is (1 - mu) times the Earth-Moon separation, not the separation itself. -/
theorem hill_distance_formulas (R : ℝ) (Rs : List ℝ) (r_m r_e : Vec3)
    (hb : r_e = smul (-(mu / (1 - mu))) r_m) :
    d_SE_L R = hillDistance R gm_earth gm_sun ∧
    d_SE_L_arr Rs = Rs.map (fun R0 => hillDistance R0 gm_earth gm_sun) ∧
    r_L2 R = hillDistance R mu (1 - mu) ∧
    r_L2 (norm3 r_m) = (1 - mu) * hillDistance (norm3 (sub r_m r_e)) mu (1 - mu) := by
  refine ⟨rfl, rfl, by rw [hillDistance_mu]; rfl, ?_⟩
  have hsep : sub r_m r_e = smul (1 / (1 - mu)) r_m := by
    rw [hb, sub_smul_self]
    congr 1
    field_simp [one_sub_mu_ne]
  have hpos : (0 : ℝ) < 1 / (1 - mu) := by
    apply div_pos one_pos
    have := mu_lt_one
    linarith
  rw [hsep, norm3_smul, abs_of_pos hpos, hillDistance_mu, r_L2]
  have h1 : ((1 : ℝ) - mu) * (1 / (1 - mu)) = 1 := by
    rw [mul_one_div]
    exact div_self one_sub_mu_ne
  linear_combination (-(norm3 r_m * (mu / 3) ^ ((1 : ℝ) / 3))) * h1

/-- Counterexample for claim C3 as stated: place the Moon at (1 - mu, 0, 0)
and the Earth at (-mu, 0, 0) relative to the Earth-Moon barycenter (the
barycentric configuration with separation 1). The Moon-L2 distance computed
by nrho_plot.py from the EMB-to-Moon distance differs from the Hill-sphere
formula evaluated at the Earth-Moon separation, so the claim fails for the
nrho_plot.py distance. -/
theorem nrho_l2_not_separation_counterexample :
    r_L2 (norm3 (⟨1 - mu, 0, 0⟩ : Vec3)) ≠
      hillDistance (norm3 (sub (⟨1 - mu, 0, 0⟩ : Vec3) ⟨-mu, 0, 0⟩)) mu (1 - mu) := by
  have hsub : sub (⟨1 - mu, 0, 0⟩ : Vec3) ⟨-mu, 0, 0⟩ = ⟨1, 0, 0⟩ := by
    simp only [sub, Vec3.mk.injEq]
    norm_num
  have habs1 : |(1 : ℝ) - mu| = 1 - mu := by
    apply abs_of_pos
    have := mu_lt_one
    linarith
  rw [hsub, norm3_xonly, norm3_xonly, habs1, abs_one, hillDistance_mu, r_L2, one_mul]
  have hc : (0 : ℝ) < (mu / 3) ^ ((1 : ℝ) / 3) := by
    apply Real.rpow_pos_of_pos
    have := mu_pos
    linarith
  intro h
  have h2 : ((1 : ℝ) - mu - 1) * (mu / 3) ^ ((1 : ℝ) / 3) = 0 := by
    linear_combination h
  rcases mul_eq_zero.mp h2 with h3 | h3
  · have := mu_pos
    linarith
  · linarith

/-- Witness for claim C3 (amended) at the barycentric configuration with
the Moon at (1 - mu, 0, 0) and the Earth at (-mu, 0, 0). -/
theorem hill_distance_formulas_witness :
    r_L2 (norm3 (⟨1 - mu, 0, 0⟩ : Vec3)) =
      (1 - mu) * hillDistance (norm3 (sub (⟨1 - mu, 0, 0⟩ : Vec3) ⟨-mu, 0, 0⟩)) mu (1 - mu) := by
  have hb : (⟨-mu, 0, 0⟩ : Vec3) = smul (-(mu / (1 - mu))) ⟨1 - mu, 0, 0⟩ := by
    simp only [smul, Vec3.mk.injEq]
    refine ⟨?_, by ring, by ring⟩
    rw [neg_mul, div_mul_cancel₀ mu one_sub_mu_ne]
  exact (hill_distance_formulas 0 [] _ _ hb).2.2.2

/-! ### Triangular libration points -/

lemma l4_map_rotZ (jx jy jz : List ℝ) (deg : ℝ) :
    (compute_l4_l5_from_jupiter jx jy jz deg).1 =
      (zip3Vec jx jy jz).map (rotZ (deg2rad deg)) := rfl

lemma l5_map_rotZ (jx jy jz : List ℝ) (deg : ℝ) :
    (compute_l4_l5_from_jupiter jx jy jz deg).2 =
      (zip3Vec jx jy jz).map (rotZ (-(deg2rad deg))) := by
  simp only [compute_l4_l5_from_jupiter]
  refine List.map_congr_left fun p _ => ?_
  simp only [rotZ, Real.cos_neg, Real.sin_neg, Vec3.mk.injEq]
  refine ⟨by ring, by ring, trivial⟩

lemma deg2rad_60 : deg2rad 60 = Real.pi / 3 := by
  unfold deg2rad; ring

lemma rotZ_dot_self (theta : ℝ) (p : Vec3) :
    dot (rotZ theta p) (rotZ theta p) = dot p p := by
  unfold rotZ dot
  have h := Real.sin_sq_add_cos_sq theta
  dsimp only
  linear_combination (p.x * p.x + p.y * p.y) * h

lemma norm3_rotZ (theta : ℝ) (p : Vec3) : norm3 (rotZ theta p) = norm3 p := by
  unfold norm3
  rw [rotZ_dot_self]

/-- Claim C4: compute_l4_l5_from_jupiter rotates every input vector by +60
degrees (L4) and -60 degrees (L5) about the +Z axis; applied to the single
vector (R, 0, 0) it yields exactly (R cos 60, R sin 60, 0) =
(R/2, R sqrt3/2, 0) for L4 and (R/2, -R sqrt3/2, 0) for L5 (the decimal
0.866 of the spec is the rounding of sqrt3/2). -/
theorem compute_l4_l5_rotation (jx jy jz : List ℝ) (R : ℝ) :
    (compute_l4_l5_from_jupiter jx jy jz 60).1 =
      (zip3Vec jx jy jz).map (rotZ (deg2rad 60)) ∧
    (compute_l4_l5_from_jupiter jx jy jz 60).2 =
      (zip3Vec jx jy jz).map (rotZ (-(deg2rad 60))) ∧
    compute_l4_l5_from_jupiter [R] [0] [0] 60 =
      ([⟨R * (1 / 2), R * (Real.sqrt 3 / 2), 0⟩],
       [⟨R * (1 / 2), -(R * (Real.sqrt 3 / 2)), 0⟩]) := by
  refine ⟨l4_map_rotZ jx jy jz 60, l5_map_rotZ jx jy jz 60, ?_⟩
  have hz : zip3Vec [R] [0] [0] = [⟨R, 0, 0⟩] := rfl
  rw [Prod.ext_iff, l4_map_rotZ, l5_map_rotZ, hz]
  constructor
  · simp only [List.map_cons, List.map_nil, List.cons.injEq, and_true]
    simp only [rotZ, deg2rad_60, Real.cos_pi_div_three, Real.sin_pi_div_three,
      Vec3.mk.injEq]
    refine ⟨by ring, by ring, trivial⟩
  · simp only [List.map_cons, List.map_nil, List.cons.injEq, and_true]
    simp only [rotZ, Real.cos_neg, Real.sin_neg, deg2rad_60,
      Real.cos_pi_div_three, Real.sin_pi_div_three, Vec3.mk.injEq]
    refine ⟨by ring, by ring, trivial⟩

/-- Claim C9: for every input sequence and every in-range index i, the L4
and L5 points produced by compute_l4_l5_from_jupiter have the same Euclidean
norm as the i-th input vector, and their Z components equal the Z component
of the input unchanged. -/
theorem l4_l5_preserve_norm_and_z (jx jy jz : List ℝ) (i : ℕ)
    (h : i < (zip3Vec jx jy jz).length) :
    (compute_l4_l5_from_jupiter jx jy jz 60).1.length = (zip3Vec jx jy jz).length ∧
    (compute_l4_l5_from_jupiter jx jy jz 60).2.length = (zip3Vec jx jy jz).length ∧
    norm3 ((compute_l4_l5_from_jupiter jx jy jz 60).1.getD i zero3) =
      norm3 ((zip3Vec jx jy jz).getD i zero3) ∧
    ((compute_l4_l5_from_jupiter jx jy jz 60).1.getD i zero3).z =
      ((zip3Vec jx jy jz).getD i zero3).z ∧
    norm3 ((compute_l4_l5_from_jupiter jx jy jz 60).2.getD i zero3) =
      norm3 ((zip3Vec jx jy jz).getD i zero3) ∧
    ((compute_l4_l5_from_jupiter jx jy jz 60).2.getD i zero3).z =
      ((zip3Vec jx jy jz).getD i zero3).z := by
  rw [l4_map_rotZ, l5_map_rotZ]
  have hlen : ((zip3Vec jx jy jz).map (rotZ (deg2rad 60))).length =
      (zip3Vec jx jy jz).length := List.length_map _ _
  have hlen5 : ((zip3Vec jx jy jz).map (rotZ (-(deg2rad 60)))).length =
      (zip3Vec jx jy jz).length := List.length_map _ _
  have h4 : i < ((zip3Vec jx jy jz).map (rotZ (deg2rad 60))).length := by
    rw [hlen]; exact h
  have h5 : i < ((zip3Vec jx jy jz).map (rotZ (-(deg2rad 60)))).length := by
    rw [hlen5]; exact h
  rw [List.getD_eq_getElem _ _ h4, List.getD_eq_getElem _ _ h5,
    List.getD_eq_getElem _ _ h, List.getElem_map, List.getElem_map]
  refine ⟨hlen, hlen5, norm3_rotZ _ _, rfl, norm3_rotZ _ _, rfl⟩

/-- Witness for claim C9 at the concrete input jx = [3], jy = [4], jz = [5],
index 0. -/
theorem l4_l5_preserve_norm_and_z_witness :
    0 < (zip3Vec [3] [4] [5]).length ∧
    norm3 ((compute_l4_l5_from_jupiter [3] [4] [5] 60).1.getD 0 zero3) =
      norm3 ((zip3Vec [3] [4] [5]).getD 0 zero3) ∧
    ((compute_l4_l5_from_jupiter [3] [4] [5] 60).1.getD 0 zero3).z =
      ((zip3Vec [3] [4] [5]).getD 0 zero3).z ∧
    norm3 ((compute_l4_l5_from_jupiter [3] [4] [5] 60).2.getD 0 zero3) =
      norm3 ((zip3Vec [3] [4] [5]).getD 0 zero3) ∧
    ((compute_l4_l5_from_jupiter [3] [4] [5] 60).2.getD 0 zero3).z =
      ((zip3Vec [3] [4] [5]).getD 0 zero3).z := by
  have h : 0 < (zip3Vec [3] [4] [5]).length := by
    simp [zip3Vec]
  obtain ⟨-, -, h1, h2, h3, h4⟩ := l4_l5_preserve_norm_and_z [3] [4] [5] 0 h
  exact ⟨h, h1, h2, h3, h4⟩


/-! ### Time grids -/

lemma arange_length (start stop step : ℝ) :
    (arange start stop step).length = ⌈(stop - start) / step⌉₊ := by
  rw [arange, List.length_map, List.length_range, arangeLen]

lemma linspace_length (a b : ℝ) (n : ℕ) : (linspace a b n).length = n := by
  rw [linspace, List.length_map, List.length_range]

/-- Claim C5 (amended): for a positive cadence and end > start, the
fixed-cadence grid of vger.py never reaches the end bound (every sample is
strictly below it), the jwst.py linspace grid never exceeds the end bound,
and the sample count is the CEILING of the elapsed duration divided by the
cadence, not the floor; the two agree exactly when the cadence divides the
elapsed duration, as in the 10-day example of the spec. -/
theorem time_grid_bounds (start stop step : ℝ)
    (hstep : 0 < step) (hlt : start < stop) :
    (arange start stop step).length = ⌈(stop - start) / step⌉₊ ∧
    (∀ t ∈ arange start stop step, t < stop) ∧
    (∀ k : ℕ, stop - start = k * step → (arange start stop step).length = k) ∧
    (linspace start stop (total_pts start stop)).length = total_pts start stop ∧
    (∀ t ∈ linspace start stop (total_pts start stop), t ≤ stop) := by
  refine ⟨arange_length start stop step, ?_, ?_, linspace_length start stop _, ?_⟩
  · intro t ht
    rw [arange, List.mem_map] at ht
    obtain ⟨k, hk, rfl⟩ := ht
    rw [List.mem_range, arangeLen] at hk
    have hk' : (k : ℝ) < (stop - start) / step := Nat.lt_ceil.mp hk
    have := (lt_div_iff₀ hstep).mp hk'
    linarith
  · intro k hk
    rw [arange_length, hk, mul_div_cancel_right₀ _ (ne_of_gt hstep), Nat.ceil_natCast]
  · intro t ht
    rw [linspace, List.mem_map] at ht
    obtain ⟨k, hk, rfl⟩ := ht
    rw [List.mem_range] at hk
    have hab : start ≤ stop := le_of_lt hlt
    set n := total_pts start stop with hn
    rcases Nat.lt_or_ge n 2 with h2 | h2
    · have hn1 : k = 0 := by omega
      subst hn1
      simp only [Nat.cast_zero, mul_zero, zero_div, add_zero]
      exact hab
    · have hd : (0 : ℝ) < (n : ℝ) - 1 := by
        have h2' : (2 : ℝ) ≤ (n : ℝ) := by exact_mod_cast h2
        linarith
      have hkle : (k : ℝ) ≤ (n : ℝ) - 1 := by
        have hk1 : (k : ℝ) + 1 ≤ (n : ℝ) := by exact_mod_cast hk
        linarith
      have hfrac : (stop - start) * (k : ℝ) / ((n : ℝ) - 1) ≤ stop - start := by
        rw [div_le_iff₀ hd]
        have h1 : (stop - start) * (k : ℝ) ≤ (stop - start) * ((n : ℝ) - 1) :=
          mul_le_mul_of_nonneg_left hkle (by linarith)
        linarith
      linarith

/-- Counterexample for claim C5 as stated: with start = 0, end = 129600
(one and a half days) and daily cadence 86400, the vger.py grid
np.arange(0, 129600, 86400) has 2 samples (the epochs 0 and 86400), while
the floor of the elapsed duration divided by the cadence is 1: the sample
count is the ceiling of elapsed over cadence, not the floor. -/
theorem arange_count_not_floor_counterexample :
    (arange 0 129600 86400).length = 2 ∧ ⌊((129600 : ℝ) - 0) / 86400⌋₊ = 1 := by
  constructor
  · rw [arange_length, Nat.ceil_eq_iff (two_ne_zero)]
    norm_num
  · rw [Nat.floor_eq_iff (by positivity)]
    norm_num

/-- Witness for claim C5 (amended) at the 10-day example of the spec:
start = 0, end = 864000, cadence 86400 yields exactly 10 epochs, none
reaching the end bound. -/
theorem time_grid_bounds_witness :
    (0 : ℝ) < 86400 ∧ (0 : ℝ) < 864000 ∧
    (arange 0 864000 86400).length = 10 ∧
    (∀ t ∈ arange 0 864000 86400, t < 864000) := by
  have h := time_grid_bounds 0 864000 86400 (by norm_num) (by norm_num)
  refine ⟨by norm_num, by norm_num, ?_, h.2.1⟩
  exact h.2.2.1 10 (by norm_num)

/-! ### Static export -/

/-- Claim C6: in static-export mode, whatever the PNG rasterization step
does, the run never ends in an uncaught exception, the HTML file is written
first, and when write_image raises, the remaining behaviour is exactly the
warning (the HTML write that happened before the try block is unaffected). -/
theorem static_export_best_effort (w : Except String Unit) :
    (static_export w).2 = false ∧
    (static_export w).1.head? = some ExportEvent.wroteHtml ∧
    (∀ e : String, w = Except.error e →
      (static_export w).1 = [ExportEvent.wroteHtml, ExportEvent.warnedPngFailed e]) := by
  refine ⟨rfl, rfl, ?_⟩
  intro e he
  subst he
  rfl

/-- Witness for claim C6 at the concrete rasterizer failure "kaleido". -/
theorem static_export_best_effort_witness :
    (static_export (Except.error "kaleido")).2 = false ∧
    (static_export (Except.error "kaleido")).1 =
      [ExportEvent.wroteHtml, ExportEvent.warnedPngFailed "kaleido"] := by
  obtain ⟨h1, -, h3⟩ := static_export_best_effort (Except.error "kaleido")
  exact ⟨h1, h3 "kaleido" rfl⟩

/-! ### The Voyager state sampler -/

lemma sample_object_eq (st : ℝ → Vec3 × Vec3) (utc : ℝ → String) (ets : List ℝ) :
    sample_object st utc ets =
      ((keptEpochs st ets).map (fun et => (st et).1.x),
       (keptEpochs st ets).map (fun et => (st et).1.y),
       (keptEpochs st ets).map (fun et => (st et).1.z),
       (keptEpochs st ets).map (fun et => norm3 (st et).2),
       (keptEpochs st ets).map utc) := by
  induction ets with
  | nil => rfl
  | cons et rest ih =>
    by_cases hc : (st et).1.y ≤ 6e9
    · simp only [sample_object, keptEpochs, List.filter_cons, hc, decide_True,
        if_true, ih, List.map_cons]
    · simp only [sample_object, keptEpochs, List.filter_cons, hc, decide_False,
        Bool.false_eq_true, if_false, ih]

/-- Claim C10: sample_object returns five lists of equal length, at most the
length of the input epoch sequence; all five are images of one and the same
retained-epoch list (so the i-th elements of all five lists come from the
same epoch), and the retained epochs form a sublist of the input sequence
(same relative order). -/
theorem sample_object_parallel_lists (st : ℝ → Vec3 × Vec3) (utc : ℝ → String)
    (ets : List ℝ) :
    ((sample_object st utc ets).1.length = (keptEpochs st ets).length ∧
     (sample_object st utc ets).2.1.length = (keptEpochs st ets).length ∧
     (sample_object st utc ets).2.2.1.length = (keptEpochs st ets).length ∧
     (sample_object st utc ets).2.2.2.1.length = (keptEpochs st ets).length ∧
     (sample_object st utc ets).2.2.2.2.length = (keptEpochs st ets).length) ∧
    (keptEpochs st ets).length ≤ ets.length ∧
    (sample_object st utc ets).1 = (keptEpochs st ets).map (fun et => (st et).1.x) ∧
    (sample_object st utc ets).2.1 = (keptEpochs st ets).map (fun et => (st et).1.y) ∧
    (sample_object st utc ets).2.2.1 = (keptEpochs st ets).map (fun et => (st et).1.z) ∧
    (sample_object st utc ets).2.2.2.1 = (keptEpochs st ets).map (fun et => norm3 (st et).2) ∧
    (sample_object st utc ets).2.2.2.2 = (keptEpochs st ets).map utc ∧
    (keptEpochs st ets).Sublist ets := by
  rw [sample_object_eq]
  refine ⟨⟨List.length_map _ _, List.length_map _ _, List.length_map _ _,
    List.length_map _ _, List.length_map _ _⟩, ?_, rfl, rfl, rfl, rfl, rfl, ?_⟩
  · exact List.length_filter_le _ _
  · exact List.filter_sublist _

/-- Claim C7 (amended): a sample is dropped by sample_object exactly when
the Y coordinate of its position exceeds 6e9 as a signed value (the X and Z
coordinates are never examined, and arbitrarily large negative Y values are
retained); every sample whose coordinates are all at most 6e9 in magnitude
is in particular retained, and retained samples carry the raw per-epoch
values unaltered. -/
theorem sample_filter_y_only (st : ℝ → Vec3 × Vec3) (utc : ℝ → String)
    (ets : List ℝ) (et : ℝ) :
    (et ∈ keptEpochs st ets ↔ et ∈ ets ∧ (st et).1.y ≤ 6e9) ∧
    (sample_object st utc ets).1 = (keptEpochs st ets).map (fun e => (st e).1.x) ∧
    (sample_object st utc ets).2.2.2.1 =
      (keptEpochs st ets).map (fun e => norm3 (st e).2) ∧
    (et ∈ ets → |(st et).1.x| ≤ 6e9 → |(st et).1.y| ≤ 6e9 → |(st et).1.z| ≤ 6e9 →
      et ∈ keptEpochs st ets) := by
  have hiff : et ∈ keptEpochs st ets ↔ et ∈ ets ∧ (st et).1.y ≤ 6e9 := by
    rw [keptEpochs, List.mem_filter]
    simp only [decide_eq_true_eq]
  refine ⟨hiff, ?_, ?_, ?_⟩
  · rw [sample_object_eq]
  · rw [sample_object_eq]
  · intro hmem hx hy hz
    exact hiff.mpr ⟨hmem, (abs_le.mp hy).2⟩

/-- Witness for claim C7 (amended) at the concrete state stDemo, epoch grid
[0]: the epoch with position (1, 2, 3) is retained. -/
theorem sample_filter_y_only_witness :
    (0 : ℝ) ∈ keptEpochs stDemo [(0 : ℝ)] := by
  refine (sample_filter_y_only stDemo utcDemo [(0 : ℝ)] 0).2.2.2 ?_ ?_ ?_ ?_
  · exact List.mem_singleton.mpr rfl
  · norm_num [stDemo]
  · norm_num [stDemo]
  · norm_num [stDemo]

/-- Counterexample for claim C7 as stated: the sampled position (7e9, 0, 0)
has a coordinate of magnitude above the 6e9 threshold, so per the claim the
sample would be dropped; sample_object retains it (its Y coordinate, the
only value tested, is 0), returning the X list [7e9]. -/
theorem sample_filter_not_magnitude_counterexample :
    (6e9 : ℝ) < |(stBig 0).1.x| ∧
    (sample_object stBig utcDemo [(0 : ℝ)]).1 = [(7e9 : ℝ)] := by
  constructor
  · norm_num [stBig]
  · rw [sample_object_eq]
    have hk : keptEpochs stBig [(0 : ℝ)] = [(0 : ℝ)] := by
      rw [keptEpochs, List.filter_cons]
      norm_num [stBig]
    rw [hk]
    simp [stBig]
